import Mathlib

/-!
Verification of the legal-qa-form backend (src/server.js): shallow embedding of
the document-catalog aggregator, the query-log store operations driven by the
HTTP handlers, and the lazily-initialized database handle.

JavaScript strings are embedded as Lean `String`; JS truthiness of the values
that actually occur (strings, numbers, option-like absent fields) is embedded
by explicit functions.  Fallible upstream calls are embedded as `Except`
values, the per-request database outcome as an explicit `DbAttempt`.
-/

namespace LegalQA

/-! ## JS string primitives -/

/-- JS `a || b` for two strings (empty string is falsy). -/
def jsOrStr (a b : String) : String := if a != "" then a else b

/-- JS `o || d` where `o` is a possibly-absent string field
(`undefined` and `""` are falsy). -/
def jsOrOptStr (o : Option String) (d : String) : String :=
  match o with
  | some s => if s != "" then s else d
  | none => d

/-- JS `o || d` where `o` is a possibly-absent number field (`0` is falsy;
an absent / non-numeric value is embedded as `none`). -/
def jsOrInt (o : Option Int) (d : Int) : Int :=
  match o with
  | some n => if n != 0 then n else d
  | none => d

/-- Truthiness of a possibly-absent string (JS: `undefined` and `""` falsy). -/
def truthyOptStr (o : Option String) : Bool :=
  match o with
  | some s => s != ""
  | none => false

/-- The whitespace forms JS `String.prototype.trim` strips that can occur in
the JSON bodies handled here. -/
def isJsSpace (c : Char) : Bool :=
  c == ' ' || c == '\t' || c == '\n' || c == '\r'

/-- Embedding of JS `s.trim()`. -/
def jsTrim (s : String) : String :=
  String.mk (((s.data.dropWhile isJsSpace).reverse.dropWhile isJsSpace).reverse)

/-- Embedding of JS `s.startsWith(pat)`. -/
def jsStartsWith (s pat : String) : Bool :=
  pat.data.isPrefixOf s.data

/-- Replace the first occurrence of `pat` in a character list
(JS `String.prototype.replace` with a string pattern replaces only the first
occurrence). -/
def replaceFirstList (pat repl : List Char) : List Char → List Char
  | [] => if pat.isPrefixOf ([] : List Char) then repl else []
  | c :: rest =>
      if pat.isPrefixOf (c :: rest) then repl ++ (c :: rest).drop pat.length
      else c :: replaceFirstList pat repl rest

/-- Embedding of JS `s.replace(pat, repl)` (first occurrence only). -/
def jsReplaceFirst (s pat repl : String) : String :=
  String.mk (replaceFirstList pat.data repl.data s.data)

/-- Split a character list at every occurrence of a separator character. -/
def splitOnCharList (sep : Char) : List Char → List (List Char)
  | [] => [[]]
  | c :: rest =>
      if c = sep then [] :: splitOnCharList sep rest
      else
        match splitOnCharList sep rest with
        | [] => [[c]]
        | h :: t => (c :: h) :: t

/-- Embedding of JS `s.split(sep)` for a one-character separator. -/
def jsSplitChar (s : String) (sep : Char) : List String :=
  (splitOnCharList sep s.data).map String.mk

/-! ## Points and payloads (vector-store records) -/

/-- Payload of one vector-store point, with the fields the aggregator reads;
absent fields are `none`. -/
structure Payload where
  title : Option String := none
  document_type : Option String := none
  jurisdictions : Option (List String) := none
  topics : Option (List String) := none
  source_url : Option String := none
  repo : Option String := none
deriving DecidableEq

/-- One vector-store point (`pt.payload` may be absent). -/
structure Point where
  id : Nat := 0
  payload : Option Payload := none
deriving DecidableEq

/-- JS `pt.payload || {}`. -/
def ptPayload (pt : Point) : Payload := pt.payload.getD {}

/-! ## Repo derivation (GET /api/documents grouping, src/server.js:428-438) -/

/-- The repo-derivation of the catalog aggregator, translated clause by clause
from the handler body:
`sourceUrl = p.source_url || ""`, then the `form://` branch takes
`sourceUrl.replace("form://", "").split("/")[0] || "general"`, then the
`gdrive://` branch, then a truthy `p.repo`, else `"ungrouped"`. -/
def deriveRepo (p : Payload) : String :=
  let sourceUrl := jsOrOptStr p.source_url ""
  if jsStartsWith sourceUrl "form://" then
    let parts := jsSplitChar (jsReplaceFirst sourceUrl "form://" "") '/'
    jsOrStr (parts.headD "") "general"
  else if jsStartsWith sourceUrl "gdrive://" then "google-drive"
  else
    match p.repo with
    | some r => if r != "" then r else "ungrouped"
    | none => "ungrouped"

/-- The first path segment of `u` after the marker `marker`: everything
between the marker and the next `'/'`. -/
def firstSegmentAfter (marker u : String) : String :=
  String.mk ((u.data.drop marker.length).takeWhile (fun c => c != '/'))

/-- Repo derivation as the specification words it: the first path segment
after the `form://` marker (falling back to `"general"` when absent or
empty); else `"google-drive"` for a `gdrive://` source; else a present
(truthy) `repo` field; else `"ungrouped"`. -/
def deriveRepoSpec (p : Payload) : String :=
  let su := jsOrOptStr p.source_url ""
  if jsStartsWith su "form://" then
    let seg := firstSegmentAfter "form://" su
    if seg = "" then "general" else seg
  else if jsStartsWith su "gdrive://" then "google-drive"
  else
    match p.repo with
    | some r => if r != "" then r else "ungrouped"
    | none => "ungrouped"

/-! ## JS values for the request body (POST /api/ask reads req.body.question) -/

/-- A JSON/JS value as it can appear in `req.body.question`. -/
inductive JsVal where
  | undef
  | nul
  | str (s : String)
  | num (n : Int)
  | boolean (b : Bool)
deriving DecidableEq

/-- JS truthiness of a `JsVal`. -/
def jsTruthy : JsVal → Bool
  | .undef => false
  | .nul => false
  | .str s => s != ""
  | .num n => n != 0
  | .boolean b => b

/-! ## Query-log rows and the store operations -/

/-- One row of the `query_log` relation. -/
structure QueryRow where
  id : Nat
  question : String
  answer : String
  confidence : String
  verdict : String
  quality_score : Int
  category : String
  complexity : String
  citation_count : Int
  routing : String
  processing_time_s : Int
  feedback : Option String := none
  created_at : Nat
  stale : Bool := false
  stale_reason : Option String := none
deriving DecidableEq

/-- Normalized upstream answer for POST /api/ask (absent fields are `none`;
numeric fields are embedded as integers, which is all the handler's
`|| default` logic depends on). -/
structure AskResult where
  answer : Option String := none
  confidence : Option String := none
  judge_verdict : Option String := none
  judge_quality : Option Int := none
  category : Option String := none
  complexity : Option String := none
  citation_count : Option Int := none
  routing : Option String := none
  processing_time_s : Option Int := none
deriving DecidableEq

/-- The row the /api/ask handler INSERTs (src/server.js:286-301): question is
the trimmed input, the other columns take the upstream fields with the
handler's `||` defaults, `created_at` is the insert time, `stale` defaults
to false and `feedback`/`stale_reason` to NULL; `id` is the next serial. -/
def mkRow (q : String) (r : AskResult) (now : Nat) (rows : List QueryRow) : QueryRow :=
  { id := rows.length + 1
    question := q
    answer := jsOrOptStr r.answer ""
    confidence := jsOrOptStr r.confidence "MEDIUM"
    verdict := jsOrOptStr r.judge_verdict "NEEDS_EDIT"
    quality_score := jsOrInt r.judge_quality 0
    category := jsOrOptStr r.category "general"
    complexity := jsOrOptStr r.complexity "complex"
    citation_count := jsOrInt r.citation_count 0
    routing := jsOrOptStr r.routing "human_review"
    processing_time_s := jsOrInt r.processing_time_s 0
    feedback := none
    created_at := now
    stale := false
    stale_reason := none }

/-- Per-request outcome of the database interaction inside a handler:
`noDb` (getDb resolved null, no DATABASE_URL), `ok` (statement executed),
`errored` (getDb or the statement rejected; the handler catches it). -/
inductive DbAttempt where
  | noDb
  | ok
  | errored
deriving DecidableEq

/-- The stale-marking UPDATE of the ingest handler (src/server.js:335):
`SET stale = TRUE, stale_reason = $1 WHERE stale = FALSE`. -/
def markAllFreshAsStale (reason : String) (rows : List QueryRow) : List QueryRow :=
  rows.map (fun r =>
    if r.stale = false then { r with stale := true, stale_reason := some reason } else r)

/-- The stale reason the ingest handler binds (src/server.js:336). -/
def mkStaleReason (title ts : String) : String :=
  "KB updated: " ++ jsTrim title ++ " ingested at " ++ ts

/-- The source_url the ingest handler constructs (src/server.js:326). -/
def mkIngestSourceUrl (repo : Option String) (title : String) : String :=
  "form://" ++ jsOrOptStr repo "general" ++ "/" ++ jsTrim title

/-! ## POST /api/ask handler (src/server.js:270-312) -/

inductive AskOutcome where
  | badRequest
  | ok200 (r : AskResult)
  | upstream502 (msg : String)
  | uncaughtTypeError
deriving DecidableEq

/-- Shallow embedding of the /api/ask handler.  The validation
`!question || question.trim().length < 5` evaluates left to right: a falsy
question gives 400; a truthy non-string throws a TypeError at
`question.trim()` before entering the try/catch (no response is produced);
a short trimmed string gives 400.  On upstream success the row insert is
attempted inside its own try/catch (`DbAttempt`): a `noDb` store skips it
and an `errored` insert is swallowed, the 200 response carrying the
upstream result is sent in every case.  Upstream failure gives 502. -/
def askHandler (question : JsVal) (upstream : Except String AskResult)
    (dbA : DbAttempt) (rows : List QueryRow) (now : Nat) :
    List QueryRow × AskOutcome :=
  if !(jsTruthy question) then (rows, .badRequest)
  else
    match question with
    | .str s =>
        if (jsTrim s).length < 5 then (rows, .badRequest)
        else
          match upstream with
          | .error e => (rows, .upstream502 e)
          | .ok r =>
              match dbA with
              | .ok => (rows ++ [mkRow (jsTrim s) r now rows], .ok200 r)
              | _ => (rows, .ok200 r)
    | _ => (rows, .uncaughtTypeError)

/-! ## POST /api/ingest handler (src/server.js:315-348) -/

/-- Upstream ingestion result, passed through to the caller unmodified. -/
structure IngestResult where
  body : String := ""
deriving DecidableEq

inductive IngestOutcome where
  | badRequest
  | ok200 (r : IngestResult)
  | upstream502 (msg : String)
deriving DecidableEq

/-- Shallow embedding of the /api/ingest handler: validate title/content,
call upstream, and on success run the stale-marking UPDATE inside its own
try/catch (`noDb` skips it, `errored` is swallowed) before answering 200
with the upstream result. -/
def ingestHandler (title content : String) (typ repo : Option String)
    (upstream : Except String IngestResult) (dbA : DbAttempt)
    (rows : List QueryRow) (ts : String) : List QueryRow × IngestOutcome :=
  if title == "" || content == "" then (rows, .badRequest)
  else
    match upstream with
    | .error e => (rows, .upstream502 e)
    | .ok r =>
        match dbA with
        | .ok => (markAllFreshAsStale (mkStaleReason title ts) rows, .ok200 r)
        | _ => (rows, .ok200 r)

/-! ## POST /api/feedback handler (src/server.js:351-365) -/

/-- The syntactic shape of an SQL UPDATE statement, as far as acceptance by
the backend is concerned. -/
structure SqlUpdateShape where
  hasOrderBy : Bool
  hasLimit : Bool
deriving DecidableEq

/-- The statement the feedback handler sends (src/server.js:357):
`UPDATE query_log SET feedback = $1 WHERE question = $2 AND feedback IS NULL
ORDER BY created_at DESC LIMIT 1` carries both an ORDER BY and a LIMIT
clause. -/
def feedbackUpdateShape : SqlUpdateShape := { hasOrderBy := true, hasLimit := true }

/-- The external PostgreSQL contract: the UPDATE grammar has no ORDER BY and
no LIMIT clause (those belong to SELECT; ORDER BY/LIMIT on UPDATE is MySQL
syntax), so the backend rejects any UPDATE carrying either with a syntax
error. -/
def pgAcceptsUpdate (s : SqlUpdateShape) : Bool := !s.hasOrderBy && !s.hasLimit

/-- Modelled from the spec: the row targeting the statement's text intends —
set feedback on the most recent (largest `created_at`) row whose question
matches exactly and whose feedback is NULL, a no-op when none matches.
PostgreSQL never executes it (see `pgAcceptsUpdate`). -/
def attachFeedbackIntended (q fb : String) (rows : List QueryRow) : List QueryRow :=
  let candidates := rows.enum.filter (fun e => e.2.question == q && e.2.feedback.isNone)
  let best := candidates.foldl
    (fun acc e =>
      match acc with
      | none => some e
      | some a => if a.2.created_at < e.2.created_at then some e else a) none
  match best with
  | none => rows
  | some b => rows.enum.map (fun e =>
      if e.1 == b.1 then { e.2 with feedback := some fb } else e.2)

inductive FeedbackOutcome where
  | okTrue
  | err500
deriving DecidableEq

/-- Shallow embedding of the /api/feedback handler: with a connected store
and a truthy question it sends `feedbackUpdateShape`; PostgreSQL rejects
that statement (`pgAcceptsUpdate feedbackUpdateShape = false`), the
rejection is caught by the handler's try/catch and answered with 500.
Without a store or with a falsy question the UPDATE is skipped and the
handler answers `{ok:true}`. -/
def feedbackHandler (question feedback : Option String) (dbConnected : Bool)
    (rows : List QueryRow) : List QueryRow × FeedbackOutcome :=
  match question with
  | some q =>
      if dbConnected && (q != "") then
        if pgAcceptsUpdate feedbackUpdateShape then
          (attachFeedbackIntended q (feedback.getD "") rows, .okTrue)
        else (rows, .err500)
      else (rows, .okTrue)
  | none => (rows, .okTrue)

/-! ## getDb (src/server.js:191-220) -/

/-- The module-level `db` variable: `none` before any acquisition, `some h`
once a Client handle `h` has been assigned. -/
structure DbState where
  db : Option Nat
deriving DecidableEq

inductive GetDbOutcome where
  | got (handle : Nat)
  | nullDb
  | threw
deriving DecidableEq

/-- Shallow embedding of `getDb`: return the cached handle if one is set;
return null when no DATABASE_URL is configured; otherwise assign the freshly
constructed Client (`freshHandle`) to the module-level `db` BEFORE awaiting
`connect()` — so when the connect (or the setup query) rejects
(`connectOk = false`), the dead handle stays cached. -/
def getDb (pgUrl : String) (st : DbState) (freshHandle : Nat) (connectOk : Bool) :
    DbState × GetDbOutcome :=
  match st.db with
  | some h => (st, .got h)
  | none =>
      if pgUrl == "" then (st, .nullDb)
      else
        let st' : DbState := { db := some freshHandle }
        if connectOk then (st', .got freshHandle) else (st', .threw)

/-! ## The write operations of the query-log subsystem (for the staleness
monotonicity half of C1): each is the state effect of the corresponding
handler. -/

inductive StoreOp where
  | insertAsk (q : String) (r : AskResult) (now : Nat)
  | ingestMarkStale (title ts : String)
  | feedbackUpdate (q fb : String)
deriving DecidableEq

/-- The effect of each write operation on the persisted rows, taken from the
handlers (with the statement executing where the handler reaches it). -/
def applyOp : StoreOp → List QueryRow → List QueryRow
  | .insertAsk q r now, rows => (askHandler (.str q) (.ok r) .ok rows now).1
  | .ingestMarkStale title ts, rows => markAllFreshAsStale (mkStaleReason title ts) rows
  | .feedbackUpdate q fb, rows => (feedbackHandler (some q) (some fb) true rows).1

/-! ## GET /api/documents grouping (src/server.js:424-452) -/

/-- JS `p.title || "Untitled"` for a point. -/
def ptTitle (pt : Point) : String := jsOrOptStr (ptPayload pt).title "Untitled"

/-- The repo derived for a point. -/
def ptRepo (pt : Point) : String := deriveRepo (ptPayload pt)

/-- The grouping key the handler builds: the plain string
`${repo}::${title}` (src/server.js:440). -/
def ptKey (pt : Point) : String := ptRepo pt ++ "::" ++ ptTitle pt

/-- One entry of `docMap`: a logical document under construction. -/
structure DocEntry where
  title : String
  repo : String
  document_type : String
  jurisdictions : List String
  topics : List String
  chunks : Nat
deriving DecidableEq

/-- The entry seeded when a key is first seen (src/server.js:442-449):
descriptive fields from this first point, `chunks := 0` before the
unconditional increment. -/
def seedDoc (pt : Point) : DocEntry :=
  let p := ptPayload pt
  { title := ptTitle pt
    repo := ptRepo pt
    document_type := jsOrOptStr p.document_type "unknown"
    jurisdictions := p.jurisdictions.getD []
    topics := p.topics.getD []
    chunks := 0 }

/-- The statement `docMap[key].chunks++`: increment the chunk count of the entry stored
under `key` (JS object keys are unique, so only the one match changes). -/
def bumpChunks (key : String) : List (String × DocEntry) → List (String × DocEntry)
  | [] => []
  | (k, d) :: rest =>
      if k == key then (k, { d with chunks := d.chunks + 1 }) :: rest
      else (k, d) :: bumpChunks key rest

/-- One iteration of the grouping loop body: seed the entry if the key is
absent (JS objects append new string keys in insertion order), then
increment its chunk count. -/
def insertPoint (m : List (String × DocEntry)) (pt : Point) : List (String × DocEntry) :=
  let key := ptKey pt
  let m' := if m.any (fun e => e.1 == key) then m else m ++ [(key, seedDoc pt)]
  bumpChunks key m'

/-- The whole grouping loop over the retrieved points. -/
def groupPoints (pts : List Point) : List (String × DocEntry) :=
  pts.foldl insertPoint []

/-- The array `Object.values(docMap)`: the documents array of the response. -/
def documentsOf (pts : List Point) : List DocEntry :=
  (groupPoints pts).map Prod.snd

/-- The distinct elements of a list in order of first occurrence. -/
def firstOccur : List String → List String
  | [] => []
  | k :: rest => k :: (firstOccur rest).filter (fun x => x != k)

/-- Placeholder entry (never reached for keys that occur in the list). -/
def emptyDoc : DocEntry :=
  { title := "", repo := "", document_type := "", jurisdictions := [], topics := [], chunks := 0 }

/-- The document the specification promises for key `k`: descriptive fields
from the first point whose key is `k`, chunk count the number of points
whose key is `k`. -/
def specDoc (pts : List Point) (k : String) : DocEntry :=
  match pts.find? (fun pt => ptKey pt == k) with
  | some pt => { seedDoc pt with chunks := (pts.filter (fun q => ptKey q == k)).length }
  | none => emptyDoc

/-- The grouped map as the specification describes it: one entry per
distinct key in first-occurrence order, carrying `specDoc`. -/
def groupSpec (pts : List Point) : List (String × DocEntry) :=
  (firstOccur (pts.map ptKey)).map (fun k => (k, specDoc pts k))

/-- C4 counterexample inputs: two points with distinct derived
`(repo, title)` pairs whose `repo ++ "::" ++ title` key strings collide. -/
def cexPt1 : Point := { id := 1, payload := some { title := some "c", repo := some "a::b" } }

def cexPt2 : Point := { id := 2, payload := some { title := some "b::c", repo := some "a" } }

/-! ## GET /api/documents scroll pagination (src/server.js:402-422, 468-473) -/

/-- The nested `result` wrapper a scroll response may carry. -/
structure ScrollInner where
  points : Option (List Point) := none
  next_page_offset : Option String := none
deriving DecidableEq

/-- One scroll response: `points`/`next_page_offset` either bare or nested
under `result`. -/
structure ScrollResult where
  points : Option (List Point) := none
  next_page_offset : Option String := none
  result : Option ScrollInner := none
deriving DecidableEq

/-- The request body of one scroll call. -/
structure ScrollRequest where
  limit : Nat
  with_payload : Bool
  with_vector : Bool
  offset : Option String
deriving DecidableEq

/-- The extraction `result.points || result.result?.points || []` — note a present empty
array is truthy in JS, so only an absent field falls through. -/
def jsPoints (r : ScrollResult) : List Point :=
  match r.points with
  | some ps => ps
  | none =>
      match r.result with
      | some inn => inn.points.getD []
      | none => []

/-- The extraction `result.next_page_offset || result.result?.next_page_offset`
(an empty-string cursor is falsy and falls through). -/
def jsNextOffset (r : ScrollResult) : Option String :=
  if truthyOptStr r.next_page_offset then r.next_page_offset
  else
    match r.result with
    | some inn => inn.next_page_offset
    | none => none

/-- The payload of one scroll call: `{limit: 100, with_payload: true,
with_vector: false}` plus `offset` only when the current offset is truthy. -/
def mkScrollPayload (offset : Option String) : ScrollRequest :=
  { limit := 100, with_payload := true, with_vector := false,
    offset := if truthyOptStr offset then offset else none }

/-- The scroll loop body: `fetch` is the upstream, indexed by page number;
the fuel counts the remaining iterations of `for (page = 0; page < maxPages;
page++)`.  Returns the accumulated points and the issued requests.  The
loop breaks when the next cursor is falsy or the page was empty; nothing
records whether the fuel ran out. -/
def scrollAux (fetch : Nat → ScrollResult) :
    Nat → Nat → Option String → List Point × List ScrollRequest
  | _, 0, _ => ([], [])
  | page, fuel + 1, offset =>
      let req := mkScrollPayload offset
      let r := fetch page
      let points := jsPoints r
      let nextOffset := jsNextOffset r
      if !truthyOptStr nextOffset || points.length == 0 then (points, [req])
      else
        let rest := scrollAux fetch (page + 1) fuel nextOffset
        (points ++ rest.1, req :: rest.2)

/-- The bound `maxPages = 20` (src/server.js:404). -/
def maxPages : Nat := 20

/-- The whole scroll phase of GET /api/documents. -/
def scrollLoop (fetch : Nat → ScrollResult) : List Point × List ScrollRequest :=
  scrollAux fetch 0 maxPages none

/-- One repo line of the response. -/
structure RepoSummary where
  name : String
  doc_count : Nat
  total_chunks : Nat
deriving DecidableEq

/-- The statements `repoMap[doc.repo].doc_count++` and `repoMap[doc.repo].total_chunks += doc.chunks`. -/
def bumpRepo (name : String) (chunks : Nat) : List RepoSummary → List RepoSummary
  | [] => []
  | r :: rest =>
      if r.name == name then
        { r with doc_count := r.doc_count + 1, total_chunks := r.total_chunks + chunks } :: rest
      else r :: bumpRepo name chunks rest

/-- One iteration of the repo fold (src/server.js:457-464). -/
def addDocRepo (acc : List RepoSummary) (d : DocEntry) : List RepoSummary :=
  let acc' :=
    if acc.any (fun r => r.name == d.repo) then acc
    else acc ++ [{ name := d.repo, doc_count := 0, total_chunks := 0 }]
  bumpRepo d.repo d.chunks acc'

def reposUnsorted (docs : List DocEntry) : List RepoSummary :=
  docs.foldl addDocRepo []

/-- Stable insertion for the descending doc_count sort
(`(a, b) => b.doc_count - a.doc_count`, JS Array.sort is stable). -/
def insertRepoDesc (r : RepoSummary) : List RepoSummary → List RepoSummary
  | [] => [r]
  | x :: xs => if x.doc_count < r.doc_count then r :: x :: xs else x :: insertRepoDesc r xs

def sortReposDesc : List RepoSummary → List RepoSummary
  | [] => []
  | x :: xs => insertRepoDesc x (sortReposDesc xs)

/-- The JSON body of a successful GET /api/documents response. -/
structure DocumentsResponse where
  repos : List RepoSummary
  documents : List DocEntry
  total_documents : Nat
  total_chunks : Nat
deriving DecidableEq

/-- The whole successful GET /api/documents computation: scroll, group,
fold repos, sort, respond.  Note the response carries no indication of
whether the scroll hit the `maxPages` ceiling. -/
def documentsHandler (fetch : Nat → ScrollResult) : DocumentsResponse :=
  let pts := (scrollLoop fetch).1
  let docs := documentsOf pts
  { repos := sortReposDesc (reposUnsorted docs)
    documents := docs
    total_documents := docs.length
    total_chunks := pts.length }

/-- C5 counterexample upstream A: 20 pages of one point each, the last page
carrying no cursor — a complete scan. -/
def cexFetchA (n : Nat) : ScrollResult :=
  { points := some [{ id := n }],
    next_page_offset := if n < 19 then some "cursor" else none }

/-- C5 counterexample upstream B: identical pages but every page carries a
cursor, and page 20 (never fetched: the ceiling) still has data — a
truncated scan. -/
def cexFetchB (n : Nat) : ScrollResult :=
  { points := some [{ id := n }], next_page_offset := some "cursor" }

/-- Witness for C1 at a concrete ingestion over one fresh row. -/
def c1Row : QueryRow :=
  { id := 1, question := "What is the notice period?", answer := "30 days",
    confidence := "HIGH", verdict := "APPROVED", quality_score := 1,
    category := "general", complexity := "simple", citation_count := 2,
    routing := "human_review", processing_time_s := 3, created_at := 10 }

/-! ### Lemmas connecting the code-side and spec-side repo derivation -/

theorem replaceFirstList_of_isPrefixOf (pat : List Char) (l : List Char)
    (h : pat.isPrefixOf l = true) :
    replaceFirstList pat [] l = l.drop pat.length := by
  cases l with
  | nil => simp [replaceFirstList, h]
  | cons c rest => simp [replaceFirstList, h]

theorem splitOnCharList_ne_nil (sep : Char) (l : List Char) :
    splitOnCharList sep l ≠ [] := by
  cases l with
  | nil => simp [splitOnCharList]
  | cons c rest =>
    by_cases h : c = sep
    · simp [splitOnCharList, h]
    · simp only [splitOnCharList, if_neg h]
      cases hs : splitOnCharList sep rest with
      | nil => simp
      | cons a t => simp

theorem headD_splitOnCharList (sep : Char) (l : List Char) :
    (splitOnCharList sep l).headD [] = l.takeWhile (fun c => c != sep) := by
  induction l with
  | nil => simp [splitOnCharList]
  | cons c rest ih =>
    by_cases h : c = sep
    · subst h
      simp [splitOnCharList, List.takeWhile]
    · simp only [splitOnCharList, if_neg h]
      cases hs : splitOnCharList sep rest with
      | nil => exact absurd hs (splitOnCharList_ne_nil sep rest)
      | cons a t =>
        have : (splitOnCharList sep rest).headD [] = a := by rw [hs]; rfl
        simp only [List.headD_cons, List.takeWhile]
        have hc : (c != sep) = true := by simp [h]
        rw [hc]
        simp only [this] at ih
        rw [ih]

theorem isPrefixOf_append_self (l r : List Char) :
    l.isPrefixOf (l ++ r) = true := by
  induction l with
  | nil => simp [List.isPrefixOf]
  | cons c rest ih => simp [List.isPrefixOf, ih]

/-- The code-side repo derivation agrees with the spec-side one everywhere. -/
theorem deriveRepo_eq_spec (p : Payload) : deriveRepo p = deriveRepoSpec p := by
  unfold deriveRepo deriveRepoSpec
  by_cases hf : jsStartsWith (jsOrOptStr p.source_url "") "form://" = true
  · simp only [hf, if_true]
    set u := jsOrOptStr p.source_url "" with hu
    have hpre : ("form://" : String).data.isPrefixOf u.data = true := hf
    have hrep : (jsReplaceFirst u "form://" "").data = u.data.drop ("form://" : String).length := by
      show (String.mk (replaceFirstList ("form://" : String).data
        ("" : String).data u.data)).data = u.data.drop ("form://" : String).length
      rw [show ("" : String).data = ([] : List Char) from rfl]
      rw [replaceFirstList_of_isPrefixOf _ _ hpre]
      rfl
    have hhead : (jsSplitChar (jsReplaceFirst u "form://" "") '/').headD "" =
        firstSegmentAfter "form://" u := by
      unfold jsSplitChar firstSegmentAfter
      cases hs : splitOnCharList '/' (jsReplaceFirst u "form://" "").data with
      | nil => exact absurd hs (splitOnCharList_ne_nil _ _)
      | cons a t =>
        have h1 : (splitOnCharList '/' (jsReplaceFirst u "form://" "").data).headD [] = a := by
          rw [hs]; rfl
        rw [headD_splitOnCharList] at h1
        simp only [hs, List.map_cons, List.headD_cons]
        rw [← h1, hrep]
    rw [hhead]
    unfold jsOrStr
    by_cases hseg : firstSegmentAfter "form://" u = ""
    · simp [hseg]
    · simp [hseg]
  · simp only [Bool.not_eq_true] at hf
    simp [hf]

/-! ### C3 -/

/-- C3: the repo derivation used by the catalog aggregator is a total,
non-null string-valued function of the payload and follows exactly the
claimed precedence (`form://` first segment with `"general"` fallback, then
`gdrive://` mapping to `"google-drive"`, then a truthy payload `repo` field,
else `"ungrouped"`), as captured by `deriveRepoSpec`. -/
theorem c3_repo_derivation_total_precedence :
    ∀ p : Payload, deriveRepo p = deriveRepoSpec p :=
  deriveRepo_eq_spec

/-! ### C1 -/

/-- C1: on a successful ingestion whose bulk update executes, the handler
answers 200 only after every previously fresh row has been flipped to
`stale = true` with a `stale_reason` containing the trimmed title; and no
write operation of the subsystem ever turns `stale` back to false or clears
a set `stale_reason`. -/
theorem c1_ingest_marks_all_fresh_stale :
    (∀ (title content : String) (typ repo : Option String) (r : IngestResult)
        (rows : List QueryRow) (ts : String),
      title ≠ "" → content ≠ "" →
      (ingestHandler title content typ repo (.ok r) .ok rows ts).2 = .ok200 r ∧
      (∀ (i : Nat) (row : QueryRow), rows[i]? = some row → row.stale = false →
        (ingestHandler title content typ repo (.ok r) .ok rows ts).1[i]? =
          some { row with stale := true, stale_reason := some (mkStaleReason title ts) }) ∧
      (∃ a b : String, a ++ jsTrim title ++ b = mkStaleReason title ts)) ∧
    (∀ (op : StoreOp) (rows : List QueryRow) (i : Nat) (row : QueryRow),
      rows[i]? = some row →
      ∃ row', (applyOp op rows)[i]? = some row' ∧
        (row.stale = true → row'.stale = true) ∧
        (row.stale_reason.isSome = true → row'.stale_reason.isSome = true)) := by
  constructor
  · intro title content typ repo r rows ts ht hc
    have hv : (title == "" || content == "") = false := by
      simp [ht, hc]
    refine ⟨by simp [ingestHandler, hv], ?_, ?_⟩
    · intro i row hrow hfresh
      simp only [ingestHandler, hv, Bool.false_eq_true, if_false]
      simp only [markAllFreshAsStale, List.getElem?_map, hrow, Option.map_some']
      simp [hfresh]
    · exact ⟨"KB updated: ", " ingested at " ++ ts, by
        simp [mkStaleReason, String.append_assoc]⟩
  · intro op rows i row hrow
    cases op with
    | insertAsk q r now =>
        refine ⟨row, ?_, fun h => h, fun h => h⟩
        simp only [applyOp, askHandler]
        by_cases hq : jsTruthy (.str q) = true
        · simp only [hq, Bool.not_true, Bool.false_eq_true, if_false]
          by_cases hl : (jsTrim q).length < 5
          · simp [hl, hrow]
          · have hi : i < rows.length := by
              rcases List.getElem?_eq_some.mp hrow with ⟨h, _⟩
              exact h
            simp only [hl, if_false]
            rw [List.getElem?_append, if_pos hi]
            exact hrow
        · simp only [Bool.not_eq_true] at hq
          simp [hq, hrow]
    | ingestMarkStale title ts =>
        simp only [applyOp, markAllFreshAsStale, List.getElem?_map, hrow, Option.map_some']
        by_cases hs : row.stale = false
        · exact ⟨{ row with stale := true, stale_reason := some (mkStaleReason title ts) },
            by simp [hs], fun _ => rfl, fun _ => rfl⟩
        · exact ⟨row, by simp [hs], fun h => h, fun h => h⟩
    | feedbackUpdate q fb =>
        refine ⟨row, ?_, fun h => h, fun h => h⟩
        simp only [applyOp, feedbackHandler, pgAcceptsUpdate, feedbackUpdateShape]
        by_cases hq : (q != "") = true
        · simp [hq, hrow]
        · simp [hq, hrow]

theorem c1_ingest_marks_all_fresh_stale_witness :
    (ingestHandler "Policy B" "some text" none none (.ok {}) .ok [c1Row] "2026-10-11").1[0]? =
      some { c1Row with stale := true, stale_reason := some (mkStaleReason "Policy B" "2026-10-11") } :=
  (c1_ingest_marks_all_fresh_stale.1 "Policy B" "some text" none none {} [c1Row] "2026-10-11"
    (by decide) (by decide)).2.1 0 c1Row (by decide) (by decide)

/-! ### C2 (code bug: the feedback UPDATE is not valid PostgreSQL) -/

/-- C2 fails on the code: the feedback UPDATE carries ORDER BY and LIMIT,
which the PostgreSQL UPDATE grammar rejects, so with a connected store and a
non-empty question the handler always answers 500 and leaves every row
unchanged — it never sets feedback and never answers `{ok:true}`. -/
theorem c2_feedback_update_rejected :
    ∀ (q fb : String) (rows : List QueryRow), q ≠ "" →
      feedbackHandler (some q) (some fb) true rows = (rows, .err500) ∧
      pgAcceptsUpdate feedbackUpdateShape = false := by
  intro q fb rows hq
  constructor
  · simp [feedbackHandler, pgAcceptsUpdate, feedbackUpdateShape, hq]
  · rfl

theorem c2_feedback_update_rejected_witness :
    feedbackHandler (some "What is the notice period?") (some "up") true [c1Row] =
      ([c1Row], .err500) :=
  (c2_feedback_update_rejected "What is the notice period?" "up" [c1Row] (by decide)).1

/-! ### C6 (the handle is cached before connect succeeds) -/

/-- Counterexample to C6: the first acquisition's connect fails
(`connectOk = false`) yet it caches its handle `1`; the next acquisition
returns that previously failed handle `1` instead of establishing a new
connection (which would have produced handle `2`). -/
theorem c6_counterexample :
    (getDb "postgres://x" { db := none } 1 false).2 = .threw ∧
    (getDb "postgres://x" { db := none } 1 false).1 = { db := some 1 } ∧
    (getDb "postgres://x" { db := some 1 } 2 true).2 = .got 1 := by
  decide

/-- C6 amended: acquisition memoizes the first constructed handle regardless
of connect success — a failed connect still caches its handle, and once any
handle is cached every later acquisition returns it unchanged without
retrying the connection. -/
theorem c6_amended_memoizes_first_handle :
    (∀ (url : String) (st : DbState) (fresh : Nat) (ok : Bool) (h : Nat),
      st.db = some h → getDb url st fresh ok = (st, .got h)) ∧
    (∀ (url : String) (fresh : Nat), url ≠ "" →
      getDb url { db := none } fresh false = ({ db := some fresh }, .threw)) := by
  constructor
  · intro url st fresh ok h hdb
    cases st with
    | mk db => cases db with
      | none => simp at hdb
      | some h0 =>
          simp only [Option.some.injEq] at hdb
          subst hdb
          rfl
  · intro url fresh hurl
    simp [getDb, hurl]

theorem c6_amended_memoizes_first_handle_witness :
    getDb "postgres://x" { db := some 1 } 2 true = ({ db := some 1 }, .got 1) :=
  c6_amended_memoizes_first_handle.1 "postgres://x" { db := some 1 } 2 true 1 rfl

/-! ### C7 -/

/-- C7: a valid /api/ask request whose upstream call and insert both succeed
appends exactly one new row, whose question column is the trimmed input. -/
theorem c7_ask_inserts_one_row :
    ∀ (s : String) (r : AskResult) (rows : List QueryRow) (now : Nat),
      5 ≤ (jsTrim s).length →
      (askHandler (.str s) (.ok r) .ok rows now).1 =
        rows ++ [mkRow (jsTrim s) r now rows] ∧
      (mkRow (jsTrim s) r now rows).question = jsTrim s := by
  intro s r rows now h
  have hs : s ≠ "" := by
    intro he
    subst he
    simp [show jsTrim "" = "" from rfl] at h
  have hl : ¬ (jsTrim s).length < 5 := by omega
  exact ⟨by simp [askHandler, jsTruthy, hs, hl], rfl⟩

theorem c7_ask_inserts_one_row_witness :
    (askHandler (.str "What is the notice period for termination?") (.ok {}) .ok [] 0).1 =
      [mkRow (jsTrim "What is the notice period for termination?") {} 0 []] ∧
    (mkRow (jsTrim "What is the notice period for termination?") {} 0 []).question =
      jsTrim "What is the notice period for termination?" :=
  c7_ask_inserts_one_row "What is the notice period for termination?" {} [] 0 (by decide)

/-! ### C8 -/

/-- C8: once the upstream call of /api/ask has succeeded, the response is
the 200 with the normalized upstream result whatever the logging attempt
does — no store, successful insert, or caught insert failure. -/
theorem c8_ask_response_independent_of_logging :
    ∀ (s : String) (r : AskResult) (dbA : DbAttempt) (rows : List QueryRow) (now : Nat),
      5 ≤ (jsTrim s).length →
      (askHandler (.str s) (.ok r) dbA rows now).2 = .ok200 r := by
  intro s r dbA rows now h
  have hs : s ≠ "" := by
    intro he
    subst he
    simp [show jsTrim "" = "" from rfl] at h
  have hl : ¬ (jsTrim s).length < 5 := by omega
  cases dbA <;> simp [askHandler, jsTruthy, hs, hl]

theorem c8_ask_response_independent_of_logging_witness :
    (askHandler (.str "What is the notice period for termination?") (.ok {})
      .errored [] 0).2 = .ok200 {} :=
  c8_ask_response_independent_of_logging "What is the notice period for termination?" {}
    .errored [] 0 (by decide)

/-! ### C10 -/

/-- C10: the /api/ask validation is total only on falsy-or-string questions.
A truthy non-string question crashes at `question.trim()` outside the
try/catch (neither 400 nor 502 is produced); a falsy question, or a string
whose trimmed form is shorter than 5 characters, gets the documented 400. -/
theorem c10_ask_validation_partiality :
    (∀ (q : JsVal) (upstream : Except String AskResult) (dbA : DbAttempt)
        (rows : List QueryRow) (now : Nat),
      jsTruthy q = true → (∀ s, q ≠ JsVal.str s) →
      (askHandler q upstream dbA rows now).2 = .uncaughtTypeError) ∧
    (∀ (s : String) (upstream : Except String AskResult) (dbA : DbAttempt)
        (rows : List QueryRow) (now : Nat),
      (jsTrim s).length < 5 →
      (askHandler (JsVal.str s) upstream dbA rows now).2 = .badRequest) ∧
    (∀ (q : JsVal) (upstream : Except String AskResult) (dbA : DbAttempt)
        (rows : List QueryRow) (now : Nat),
      jsTruthy q = false →
      (askHandler q upstream dbA rows now).2 = .badRequest) := by
  refine ⟨?_, ?_, ?_⟩
  · intro q upstream dbA rows now hq hns
    cases q with
    | str s => exact absurd rfl (hns s)
    | undef => simp [jsTruthy] at hq
    | nul => simp [jsTruthy] at hq
    | num n => simp [askHandler, hq]
    | boolean b => simp [askHandler, hq]
  · intro s upstream dbA rows now hl
    by_cases hs : s = ""
    · subst hs
      simp [askHandler, jsTruthy]
    · simp [askHandler, jsTruthy, hs, hl]
  · intro q upstream dbA rows now hq
    simp [askHandler, hq]

theorem c10_ask_validation_partiality_witness :
    (askHandler (JsVal.num 5) (.ok {}) .ok [] 0).2 = .uncaughtTypeError :=
  c10_ask_validation_partiality.1 (JsVal.num 5) (.ok {}) .ok [] 0 (by decide)
    (fun s h => by cases h)

/-! ### C9 -/

theorem takeWhile_append_slash (l m : List Char) (h : ∀ c ∈ l, c ≠ '/') :
    (l ++ '/' :: m).takeWhile (fun c => c != '/') = l := by
  induction l with
  | nil => simp [List.takeWhile]
  | cons c rest ih =>
      have hc : (c != '/') = true := by
        simp only [bne_iff_ne, ne_eq]
        exact h c (List.mem_cons_self c rest)
      simp only [List.cons_append, List.takeWhile, hc]
      exact congrArg (List.cons c) (ih (fun x hx => h x (List.mem_cons_of_mem c hx)))

theorem jsOrOptStr_some_empty (s : String) : jsOrOptStr (some s) "" = s := by
  by_cases h : (s != "") = true
  · simp [jsOrOptStr, h]
  · simp only [bne_iff_ne, ne_eq, Decidable.not_not] at h
    simp [jsOrOptStr, h]

theorem jsOrOptStr_general_ne (repo : Option String) :
    jsOrOptStr repo "general" ≠ "" := by
  cases repo with
  | none => simp [jsOrOptStr]
  | some r =>
      by_cases h : (r != "") = true
      · simpa [jsOrOptStr, h] using (bne_iff_ne.mp h)
      · simp [jsOrOptStr, h]

/-- C9: the repo derivation of the catalog aggregator inverts the source_url
constructed by the ingest handler: whenever the effective repo value
(`repo || "general"`) contains no slash, deriving the repo from
`form://{repo || "general"}/{title.trim()}` gives back exactly that value. -/
theorem c9_ingest_catalog_roundtrip :
    ∀ (repo : Option String) (title : String),
      ('/' : Char) ∉ (jsOrOptStr repo "general").data →
      deriveRepo { source_url := some (mkIngestSourceUrl repo title) } =
        jsOrOptStr repo "general" := by
  intro repo title hslash
  rw [deriveRepo_eq_spec]
  unfold deriveRepoSpec
  have hsu : jsOrOptStr (Payload.source_url { source_url := some (mkIngestSourceUrl repo title) }) ""
      = mkIngestSourceUrl repo title := jsOrOptStr_some_empty _
  set rv := jsOrOptStr repo "general" with hrv
  have hdata : (mkIngestSourceUrl repo title).data =
      ("form://" : String).data ++ (rv.data ++ '/' :: (jsTrim title).data) := by
    unfold mkIngestSourceUrl
    rw [← hrv]
    simp [String.data_append, List.append_assoc]
  have hstart : jsStartsWith (mkIngestSourceUrl repo title) "form://" = true := by
    unfold jsStartsWith
    rw [hdata]
    exact isPrefixOf_append_self _ _
  simp only [hsu, hstart, if_true]
  have hseg : firstSegmentAfter "form://" (mkIngestSourceUrl repo title) = rv := by
    unfold firstSegmentAfter
    rw [hdata]
    rw [show ("form://" : String).length = ("form://" : String).data.length from rfl]
    rw [List.drop_left]
    rw [takeWhile_append_slash _ _ (fun c hc => by
      intro he
      subst he
      exact hslash hc)]
  rw [hseg]
  simp [jsOrOptStr_general_ne repo]

theorem c9_ingest_catalog_roundtrip_witness :
    (('/' : Char) ∉ (jsOrOptStr (some "acme") "general").data) ∧
    deriveRepo { source_url := some (mkIngestSourceUrl (some "acme") " Policy A ") } =
      jsOrOptStr (some "acme") "general" :=
  ⟨by decide, c9_ingest_catalog_roundtrip (some "acme") " Policy A " (by decide)⟩

/-! ### C4: grouping lemmas -/

theorem mem_firstOccur (a : String) (l : List String) : a ∈ firstOccur l ↔ a ∈ l := by
  induction l with
  | nil => simp [firstOccur]
  | cons k rest ih =>
      simp only [firstOccur, List.mem_cons, List.mem_filter, bne_iff_ne, ne_eq]
      constructor
      · rintro (rfl | ⟨hm, _⟩)
        · exact Or.inl rfl
        · exact Or.inr (ih.mp hm)
      · rintro (rfl | hm)
        · exact Or.inl rfl
        · by_cases ha : a = k
          · exact Or.inl ha
          · exact Or.inr ⟨ih.mpr hm, by simpa using ha⟩

theorem nodup_firstOccur (l : List String) : (firstOccur l).Nodup := by
  induction l with
  | nil => simp [firstOccur]
  | cons k rest ih =>
      simp only [firstOccur, List.nodup_cons]
      refine ⟨fun hk => ?_, ih.filter _⟩
      rcases List.mem_filter.mp hk with ⟨_, hne⟩
      simp at hne

theorem firstOccur_append_singleton (l : List String) (k : String) :
    firstOccur (l ++ [k]) =
      if k ∈ l then firstOccur l else firstOccur l ++ [k] := by
  induction l with
  | nil => simp [firstOccur]
  | cons a rest ih =>
      show firstOccur (a :: (rest ++ [k])) = _
      by_cases hk : k ∈ rest
      · rw [if_pos (List.mem_cons_of_mem a hk)]
        show a :: (firstOccur (rest ++ [k])).filter (fun x => x != a) = firstOccur (a :: rest)
        rw [ih, if_pos hk]
        rfl
      · by_cases hka : k = a
        · subst hka
          rw [if_pos (List.mem_cons_self k rest)]
          show k :: (firstOccur (rest ++ [k])).filter (fun x => x != k) = firstOccur (k :: rest)
          rw [ih, if_neg hk, List.filter_append]
          simp [firstOccur]
        · have hm : k ∉ a :: rest := by
            intro hc
            rcases List.mem_cons.mp hc with h | h
            · exact hka h
            · exact hk h
          rw [if_neg hm]
          show a :: (firstOccur (rest ++ [k])).filter (fun x => x != a) = firstOccur (a :: rest) ++ [k]
          rw [ih, if_neg hk, List.filter_append]
          have hfk : [k].filter (fun x => x != a) = [k] := by simp [hka]
          rw [hfk]
          simp [firstOccur]

theorem any_map_pairing (ks : List String) (f : String → DocEntry) (key : String) :
    ((ks.map (fun k => (k, f k))).any (fun e => e.1 == key)) = ks.any (fun k => k == key) := by
  induction ks with
  | nil => rfl
  | cons a rest ih => simp [ih]

theorem any_beq_iff_mem (ks : List String) (key : String) :
    ks.any (fun k => k == key) = true ↔ key ∈ ks := by
  simp only [List.any_eq_true, beq_iff_eq]
  constructor
  · rintro ⟨x, hx, rfl⟩
    exact hx
  · intro h
    exact ⟨key, h, rfl⟩

theorem bumpChunks_map_pairing (ks : List String) (f : String → DocEntry) (key : String)
    (hnd : ks.Nodup) (hm : key ∈ ks) :
    bumpChunks key (ks.map (fun k => (k, f k))) =
      ks.map (fun k => (k, if k = key then { f k with chunks := (f k).chunks + 1 } else f k)) := by
  induction ks with
  | nil => cases hm
  | cons a rest ih =>
      rcases List.nodup_cons.mp hnd with ⟨hna, hndr⟩
      by_cases hak : a = key
      · subst hak
        simp only [List.map_cons, bumpChunks, beq_self_eq_true, if_true, if_pos rfl]
        refine congrArg _ ?_
        apply List.map_congr_left
        intro x hx
        have : x ≠ a := fun he => hna (he ▸ hx)
        simp [this]
      · have hm' : key ∈ rest := by
          rcases List.mem_cons.mp hm with h | h
          · exact absurd h.symm hak
          · exact h
        have hbeq : (a == key) = false := by simp [hak]
        simp only [List.map_cons, bumpChunks, hbeq, Bool.false_eq_true, if_false, if_neg hak]
        exact congrArg _ (ih hndr hm')

theorem bumpChunks_append_new (m : List (String × DocEntry)) (key : String) (d : DocEntry)
    (h : ∀ e ∈ m, e.1 ≠ key) :
    bumpChunks key (m ++ [(key, d)]) = m ++ [(key, { d with chunks := d.chunks + 1 })] := by
  induction m with
  | nil => simp [bumpChunks]
  | cons e rest ih =>
      have he : e.1 ≠ key := h e (List.mem_cons_self e rest)
      have hbeq : (e.1 == key) = false := by simp [he]
      cases e with
      | mk k0 d0 =>
          simp only [List.cons_append, bumpChunks, hbeq, Bool.false_eq_true, if_false]
          exact congrArg _ (ih (fun x hx => h x (List.mem_cons_of_mem _ hx)))

theorem find?_append_singleton_of_false {α : Type} (p : α → Bool) (l : List α) (x : α)
    (h : p x = false) : (l ++ [x]).find? p = l.find? p := by
  induction l with
  | nil => simp [List.find?, h]
  | cons a rest ih =>
      cases hpa : p a with
      | true => simp [List.find?, hpa]
      | false => simp [List.find?, hpa, ih]

theorem specDoc_append_of_ne (pts : List Point) (pt : Point) (k : String)
    (h : ptKey pt ≠ k) : specDoc (pts ++ [pt]) k = specDoc pts k := by
  have hb : (ptKey pt == k) = false := by simp [h]
  unfold specDoc
  rw [find?_append_singleton_of_false (fun q => ptKey q == k) pts pt hb]
  rw [List.filter_append]
  have hnil : [pt].filter (fun q => ptKey q == k) = [] := by simp [h]
  rw [hnil, List.append_nil]

theorem specDoc_append_self_present (pts : List Point) (pt : Point)
    (hp : ptKey pt ∈ pts.map ptKey) :
    specDoc (pts ++ [pt]) (ptKey pt) =
      { specDoc pts (ptKey pt) with chunks := (specDoc pts (ptKey pt)).chunks + 1 } := by
  unfold specDoc
  cases hf : pts.find? (fun q => ptKey q == ptKey pt) with
  | none =>
      rcases List.mem_map.mp hp with ⟨q, hq, hkq⟩
      have := List.find?_eq_none.mp hf q hq
      simp [hkq] at this
  | some q =>
      have hfind : (pts ++ [pt]).find? (fun q => ptKey q == ptKey pt) = some q := by
        rw [List.find?_append, hf]
        rfl
      rw [hfind]
      simp only []
      rw [List.filter_append]
      simp [List.filter]

theorem specDoc_append_self_new (pts : List Point) (pt : Point)
    (hp : ptKey pt ∉ pts.map ptKey) :
    specDoc (pts ++ [pt]) (ptKey pt) = { seedDoc pt with chunks := 1 } := by
  have hnone : pts.find? (fun q => ptKey q == ptKey pt) = none := by
    rw [List.find?_eq_none]
    intro q hq hbq
    exact hp (List.mem_map.mpr ⟨q, hq, (beq_iff_eq.mp hbq)⟩)
  have hfilter : pts.filter (fun q => ptKey q == ptKey pt) = [] := by
    rw [List.filter_eq_nil_iff]
    intro q hq hbq
    exact hp (List.mem_map.mpr ⟨q, hq, (beq_iff_eq.mp hbq)⟩)
  unfold specDoc
  rw [List.find?_append, hnone]
  simp only [Option.none_orElse]
  rw [List.filter_append, hfilter]
  simp [List.find?, List.filter]

theorem insertPoint_groupSpec (l : List Point) (pt : Point) :
    insertPoint (groupSpec l) pt = groupSpec (l ++ [pt]) := by
  classical
  have hmapapp : (l ++ [pt]).map ptKey = l.map ptKey ++ [ptKey pt] := by simp
  by_cases hp : ptKey pt ∈ l.map ptKey
  · -- the key is already grouped: bump its entry
    have hany : ((groupSpec l).any (fun e => e.1 == ptKey pt)) = true := by
      unfold groupSpec
      rw [any_map_pairing, any_beq_iff_mem]
      exact (mem_firstOccur _ _).mpr hp
    simp only [insertPoint, hany, if_true]
    unfold groupSpec
    rw [bumpChunks_map_pairing _ _ _ (nodup_firstOccur _) ((mem_firstOccur _ _).mpr hp)]
    rw [hmapapp, firstOccur_append_singleton, if_pos hp]
    apply List.map_congr_left
    intro x hx
    by_cases hxk : x = ptKey pt
    · subst hxk
      rw [if_pos rfl, specDoc_append_self_present l pt hp]
    · rw [if_neg hxk, specDoc_append_of_ne l pt x (fun he => hxk he.symm)]
  · -- new key: appended at the end with chunk count 1
    have hany : ((groupSpec l).any (fun e => e.1 == ptKey pt)) = false := by
      unfold groupSpec
      rw [any_map_pairing]
      refine Bool.eq_false_iff.mpr (fun hc => ?_)
      exact hp ((mem_firstOccur _ _).mp ((any_beq_iff_mem _ _).mp hc))
    simp only [insertPoint, hany, Bool.false_eq_true, if_false]
    have hkeys : ∀ e ∈ groupSpec l, e.1 ≠ ptKey pt := by
      intro e he hek
      rcases List.mem_map.mp he with ⟨x, hx, rfl⟩
      exact hp ((mem_firstOccur _ _).mp (hek ▸ hx))
    rw [bumpChunks_append_new _ _ _ hkeys]
    unfold groupSpec
    rw [hmapapp, firstOccur_append_singleton, if_neg hp, List.map_append]
    congr 1
    · apply List.map_congr_left
      intro x hx
      have hxk : ptKey pt ≠ x := by
        intro he
        exact hp (he ▸ (mem_firstOccur x _).mp hx)
      rw [specDoc_append_of_ne l pt x hxk]
    · simp only [List.map_cons, List.map_nil]
      rw [specDoc_append_self_new l pt hp]
      simp [seedDoc]

/-- C4 amended: the grouping loop produces, in first-occurrence order, one
entry per distinct key string `repo ++ "::" ++ title`, whose chunk count is
the number of points with that key and whose descriptive fields come from
the first point with that key (`groupSpec`). -/
theorem c4_grouping_by_key_string :
    ∀ pts : List Point, groupPoints pts = groupSpec pts := by
  intro pts
  induction pts using List.reverseRecOn with
  | nil => rfl
  | append_singleton l pt ih =>
      have : groupPoints (l ++ [pt]) = insertPoint (groupPoints l) pt := by
        unfold groupPoints
        rw [List.foldl_append]
        rfl
      rw [this, ih, insertPoint_groupSpec]

/-- C4 counterexample: two points with distinct derived `(repo, title)`
pairs — `("a::b", "c")` and `("a", "b::c")` — share the key string
`"a::b::c"`, so the scan returns one document whose chunk count is 2 while
only 1 point carries that document's `(repo, title)` pair: the claimed
bijection with distinct pairs (and the per-pair chunk count) fails. -/
theorem c4_counterexample :
    ptKey cexPt1 = ptKey cexPt2 ∧
    (ptRepo cexPt1 ≠ ptRepo cexPt2) ∧
    documentsOf [cexPt1, cexPt2] =
      [{ title := "c", repo := "a::b", document_type := "unknown",
         jurisdictions := [], topics := [], chunks := 2 }] ∧
    ([cexPt1, cexPt2].filter
      (fun pt => ptRepo pt == "a::b" && ptTitle pt == "c")).length = 1 := by
  decide

/-! ### C5: scroll-loop lemmas -/

theorem scrollAux_spec (fetch : Nat → ScrollResult) :
    ∀ (fuel page : Nat) (off : Option String),
      (∀ req ∈ (scrollAux fetch page fuel off).2,
        req.limit = 100 ∧ req.with_payload = true ∧ req.with_vector = false) ∧
      (scrollAux fetch page fuel off).2.length ≤ fuel ∧
      (∀ i : Nat, i + 1 < (scrollAux fetch page fuel off).2.length →
        truthyOptStr (jsNextOffset (fetch (page + i))) = true ∧
        (jsPoints (fetch (page + i))).length ≠ 0) := by
  intro fuel
  induction fuel with
  | zero =>
      intro page off
      refine ⟨?_, ?_, ?_⟩ <;> simp [scrollAux]
  | succ fuel ih =>
      intro page off
      cases hg : !truthyOptStr (jsNextOffset (fetch page)) ||
          ((jsPoints (fetch page)).length == 0) with
      | true =>
          have heq : scrollAux fetch page (fuel + 1) off =
              (jsPoints (fetch page), [mkScrollPayload off]) := by
            simp [scrollAux, hg]
          refine ⟨?_, ?_, ?_⟩
          · intro req hreq
            rw [heq] at hreq
            rcases List.mem_singleton.mp hreq with rfl
            exact ⟨rfl, rfl, rfl⟩
          · rw [heq]
            simp
          · intro i hi
            rw [heq] at hi
            simp at hi
      | false =>
          have heq : scrollAux fetch page (fuel + 1) off =
              (jsPoints (fetch page) ++
                 (scrollAux fetch (page + 1) fuel (jsNextOffset (fetch page))).1,
               mkScrollPayload off ::
                 (scrollAux fetch (page + 1) fuel (jsNextOffset (fetch page))).2) := by
            simp [scrollAux, hg]
          have hcond : truthyOptStr (jsNextOffset (fetch page)) = true ∧
              (jsPoints (fetch page)).length ≠ 0 := by
            have h1 := Bool.or_eq_false_iff.mp hg
            refine ⟨?_, ?_⟩
            · have := h1.1
              simp only [Bool.not_eq_false'] at this
              exact this
            · have := h1.2
              simpa using this
          have ihh := ih (page + 1) (jsNextOffset (fetch page))
          refine ⟨?_, ?_, ?_⟩
          · intro req hreq
            rw [heq] at hreq
            rcases List.mem_cons.mp hreq with rfl | hmem
            · exact ⟨rfl, rfl, rfl⟩
            · exact ihh.1 req hmem
          · rw [heq]
            simpa using ihh.2.1
          · intro i hi
            rw [heq] at hi
            cases i with
            | zero => simpa using hcond
            | succ j =>
                have hj : j + 1 <
                    (scrollAux fetch (page + 1) fuel (jsNextOffset (fetch page))).2.length := by
                  simp only [List.length_cons] at hi
                  omega
                have := ihh.2.2 j hj
                have harith : page + 1 + j = page + (j + 1) := by omega
                rw [harith] at this
                exact this

/-- C5 amended: every scroll page requests exactly 100 points with payload
included and vectors excluded; paging continues past a page only when that
page returned a truthy cursor (bare or nested) and a non-empty point set;
at most `maxPages = 20` requests are issued.  (The ceiling itself is
silent — see the counterexample.) -/
theorem c5_scroll_bounded_pagination :
    ∀ fetch : Nat → ScrollResult,
      (∀ req ∈ (scrollLoop fetch).2,
        req.limit = 100 ∧ req.with_payload = true ∧ req.with_vector = false) ∧
      (scrollLoop fetch).2.length ≤ maxPages ∧
      (∀ i : Nat, i + 1 < (scrollLoop fetch).2.length →
        truthyOptStr (jsNextOffset (fetch i)) = true ∧
        (jsPoints (fetch i)).length ≠ 0) := by
  intro fetch
  have h := scrollAux_spec fetch maxPages 0 none
  refine ⟨h.1, h.2.1, fun i hi => ?_⟩
  have hc := h.2.2 i hi
  simpa using hc

theorem c5_scroll_bounded_pagination_witness :
    truthyOptStr (jsNextOffset (cexFetchA 0)) = true ∧
    (jsPoints (cexFetchA 0)).length ≠ 0 :=
  (c5_scroll_bounded_pagination cexFetchA).2.2 0 (by decide)

/-- C5 counterexample (to the detectability conjunct): upstream A ends its
data exactly at page 20 (complete scan: page 19 carries no cursor), while
upstream B still has a live cursor at page 19 and more points at page 20
(the scan is cut off by the `maxPages` ceiling) — yet the two
`/api/documents` responses are identical, so the caller cannot detect the
incomplete scan from any returned flag or signal. -/
theorem c5_counterexample :
    documentsHandler cexFetchA = documentsHandler cexFetchB ∧
    truthyOptStr (jsNextOffset (cexFetchA 19)) = false ∧
    truthyOptStr (jsNextOffset (cexFetchB 19)) = true ∧
    jsPoints (cexFetchB 20) ≠ [] := by
  decide

end LegalQA
